import Mathlib

set_option linter.unusedVariables false

namespace Scandir

/-! Shallow embedding of `scandir.py` (abarnert/scandir, version 0.2).

The module has three platform branches: a Windows branch built on
FindFirstFile/FindNextFile/FindClose, a POSIX branch built on
opendir/readdir_r/closedir, and a fallback branch built on os.listdir, plus a
platform-independent `walk` built on top of `scandir`.  We embed each piece the
claims need.  The operating system itself (what the native calls return) is a
parameter of each embedded function: an explicit open result, a list of
successive read results, and an `lstat` oracle indexed by the number of native
lstat calls made so far, so that call counts and time-varying results are
observable. -/

/-! ## Error model

CPython represents a native failure as `OSError(errno, strerror)` with a
`filename` attribute; `posix_error`/`win_error` in the source build exactly
that.  Python 3 maps errno 2 (ENOENT) to `FileNotFoundError` and errno 13
(EACCES) to `PermissionError`; `errKind` models that documented mapping. -/

structure OsError where
  errno : Nat
  filename : String
deriving DecidableEq

def ENOENT : Nat := 2
def EACCES : Nat := 13
def ENOTDIR : Nat := 20

inductive ErrKind where
  | notFound
  | permissionDenied
  | other
deriving DecidableEq

/-- The documented CPython mapping from an OS error number to the exception
class the caller sees. -/
def errKind (e : Nat) : ErrKind :=
  if e = ENOENT then ErrKind.notFound
  else if e = EACCES then ErrKind.permissionDenied
  else ErrKind.other

/-! ## stat model

Only `st_mode` (and, on Windows, `st_size`) matter to any claim; the Windows
timestamp fields go through floating-point division (`filetime_to_time`) and
are out of scope of every claim, so they are omitted from the record. -/

structure stat_result where
  st_mode : Nat
  st_size : Nat
deriving DecidableEq

def S_IFMT : Nat := 0o170000
def S_IFDIR : Nat := 0o040000
def S_IFREG : Nat := 0o100000
def S_IFLNK : Nat := 0o120000

/-- Reference classification of a full-status record as a directory, exactly
`stat.S_ISDIR` (and the mode test the source itself writes as
`st_mode & 0o170000 == S_IFDIR`). -/
def S_ISDIRb (m : Nat) : Bool := m &&& S_IFMT == S_IFDIR

/-- Reference classification as a regular file (`stat.S_ISREG`). -/
def S_ISREGb (m : Nat) : Bool := m &&& S_IFMT == S_IFREG

/-- Reference classification as a symbolic link (`stat.S_ISLNK`). -/
def S_ISLNKb (m : Nat) : Bool := m &&& S_IFMT == S_IFLNK

/-- `os.path.join` for a parent path and a plain child name, as used on every
`join(path, name)` call site of the source. -/
def join (a b : String) : String := a ++ "/" ++ b

/-! ## POSIX branch: dirent and DirEntry -/

def DT_UNKNOWN : Nat := 0
def DT_DIR : Nat := 4
def DT_REG : Nat := 8
def DT_LNK : Nat := 10

/-- The fields of `struct dirent` the source reads: `d_name` and `d_type`. -/
structure Dirent where
  d_name : String
  d_type : Nat
deriving DecidableEq

/-- POSIX `DirEntry`: `_path`, `name`, `dirent`, and the memoized `_lstat`
field (initially `None`). -/
structure DirEntry where
  path : String
  name : String
  dirent : Dirent
  lstatCache : Option stat_result
deriving DecidableEq

/-- The OS behaviour of `os.lstat` on the entry's full path: the result of the
k-th native lstat call made for this entry (an errno on failure).  Indexing by
the call number lets a failed call be followed by a successful one, as happens
when a race resolves. -/
def LstatOracle := Nat → Except Nat stat_result

/-- A `DirEntry` together with the number of native lstat calls performed on
its behalf so far (the instrumentation the spec's testable properties ask
for). -/
structure EntrySt where
  entry : DirEntry
  calls : Nat
deriving DecidableEq

/-- `DirEntry.lstat`: if `self._lstat is None`, call
`os.lstat(join(self._path, self.name))` and memoize the result; return the
memoized record.  A failing native call raises `OSError` (with the full path
as filename, as `os.lstat` sets it) and memoizes nothing. -/
def DirEntry.lstat (os : LstatOracle) (s : EntrySt) :
    Except OsError stat_result × EntrySt :=
  match s.entry.lstatCache with
  | some st => (Except.ok st, s)
  | none =>
      match os s.calls with
      | Except.ok st =>
          (Except.ok st,
           ⟨⟨s.entry.path, s.entry.name, s.entry.dirent, some st⟩, s.calls + 1⟩)
      | Except.error e =>
          (Except.error ⟨e, join s.entry.path s.entry.name⟩,
           ⟨s.entry, s.calls + 1⟩)

/-- `DirEntry.isdir`: answer from `d_type` when it is definite; otherwise
perform the (memoizing) lstat, report `False` if it raises `OSError`, and
otherwise classify from `self._lstat.st_mode & 0o170000 == S_IFDIR` (after a
successful `lstat()` the cache holds exactly the returned record). -/
def DirEntry.isdir (os : LstatOracle) (s : EntrySt) : Bool × EntrySt :=
  let d_type := s.entry.dirent.d_type
  if d_type != DT_UNKNOWN then
    (d_type == DT_DIR, s)
  else
    match DirEntry.lstat os s with
    | (Except.error _, s') => (false, s')
    | (Except.ok st, s') => (st.st_mode &&& S_IFMT == S_IFDIR, s')

/-- `DirEntry.isfile`, same shape as `isdir` with `DT_REG`/`S_IFREG`. -/
def DirEntry.isfile (os : LstatOracle) (s : EntrySt) : Bool × EntrySt :=
  let d_type := s.entry.dirent.d_type
  if d_type != DT_UNKNOWN then
    (d_type == DT_REG, s)
  else
    match DirEntry.lstat os s with
    | (Except.error _, s') => (false, s')
    | (Except.ok st, s') => (st.st_mode &&& S_IFMT == S_IFREG, s')

/-- `DirEntry.islink`, same shape as `isdir` with `DT_LNK`/`S_IFLNK`. -/
def DirEntry.islink (os : LstatOracle) (s : EntrySt) : Bool × EntrySt :=
  let d_type := s.entry.dirent.d_type
  if d_type != DT_UNKNOWN then
    (d_type == DT_LNK, s)
  else
    match DirEntry.lstat os s with
    | (Except.error _, s') => (false, s')
    | (Except.ok st, s') => (st.st_mode &&& S_IFMT == S_IFLNK, s')

/-! ## POSIX branch: scandir

`scandir(path)` is a generator: opendir, then a loop of readdir_r calls, each
yielding one `DirEntry` unless the name is `.` or `..`, with `closedir` in a
`finally:` clause so that normal completion, early abandonment by the consumer
(which closes the suspended generator at its current `yield`) and a failing
native step all release the handle.  The embedding runs the generator to
completion against an explicit OS behaviour and an optional consumer `limit`
(`some n` = the consumer abandons after receiving `n` entries; `some 0` = the
generator is never started, so its body never runs), returning the trace of
native calls and the outcome. -/

/-- One `readdir_r` outcome: a dirent, or a native failure (errno).  The end
of the directory stream is modelled by exhausting the list of steps. -/
inductive ReadStep where
  | entry (d : Dirent)
  | fail (errno : Nat)
deriving DecidableEq

/-- OS behaviour of one directory for the POSIX branch: `opendir` result
(`some errno` = NULL return with that errno) and the successive `readdir_r`
outcomes. -/
structure PosixDirOs where
  openResult : Option Nat
  reads : List ReadStep
deriving DecidableEq

/-- The native calls the POSIX branch can make on the directory handle. -/
inductive OsCall where
  | opendirCall (ok : Bool)
  | readdirCall
  | closedirCall
deriving DecidableEq, BEq

/-- Count occurrences of one call in a trace. -/
def countCall {α : Type} [BEq α] (c : α) (l : List α) : Nat :=
  (l.filter fun x => x == c).length

/-- Decrement the consumer's remaining demand (`none` = consume everything). -/
def decLimit : Option Nat → Option Nat
  | none => none
  | some n => some (n - 1)

/-- The `while True:` loop of the POSIX `scandir`: one `readdir_r` per
iteration; a failing step raises (running the `finally:` closedir); a NULL
result breaks (closedir, normal end); `.`/`..` are skipped; any other name is
yielded, and if that yield satisfies the consumer's demand the abandoned
generator is closed at once (closedir, no further readdir). -/
def scanLoop (path : String) :
    Option Nat → List DirEntry → List OsCall → List ReadStep →
    List OsCall × Except OsError (List DirEntry)
  | _, acc, tr, [] =>
      (tr ++ [OsCall.readdirCall, OsCall.closedirCall], Except.ok acc)
  | _, _, tr, ReadStep.fail e :: _ =>
      (tr ++ [OsCall.readdirCall, OsCall.closedirCall],
       Except.error ⟨e, path⟩)
  | remaining, acc, tr, ReadStep.entry d :: rest =>
      if d.d_name = "." ∨ d.d_name = ".." then
        scanLoop path remaining acc (tr ++ [OsCall.readdirCall]) rest
      else
        let acc' := acc ++ [(⟨path, d.d_name, d, none⟩ : DirEntry)]
        let rem' := decLimit remaining
        if rem' = some 0 then
          (tr ++ [OsCall.readdirCall, OsCall.closedirCall], Except.ok acc')
        else
          scanLoop path rem' acc' (tr ++ [OsCall.readdirCall]) rest

/-- POSIX `scandir(path)` run against OS behaviour `os` with consumer demand
`limit`: `opendir`, raising `OSError(errno)` with the path as filename on a
NULL return, then the read loop. -/
def scandirPosixTrace (os : PosixDirOs) (path : String) (limit : Option Nat) :
    List OsCall × Except OsError (List DirEntry) :=
  if limit = some 0 then ([], Except.ok [])
  else
    match os.openResult with
    | some e => ([OsCall.opendirCall false], Except.error ⟨e, path⟩)
    | none => scanLoop path limit [] [OsCall.opendirCall true] os.reads

/-- The names a full run of POSIX `scandir` yields (empty on error). -/
def scandirNames (os : PosixDirOs) (path : String) : List String :=
  match (scandirPosixTrace os path none).2 with
  | Except.ok es => es.map DirEntry.name
  | Except.error _ => []

/-! ## Fallback branch (`os.listdir`-based) -/

/-- Modelled OS primitive: `os.listdir` returns the directory's raw entry
names without the `.` and `..` pseudo-entries (documented CPython behaviour);
`raw` is the raw native listing including them. -/
def listdirModel (raw : List String) : List String :=
  raw.filter fun n => !(n == "." || n == "..")

/-- Fallback `DirEntry`: only `_path` and `name` (and `dirent = None`,
`_lstat = None`, omitted here as no claim touches them). -/
structure FallbackDirEntry where
  path : String
  name : String
deriving DecidableEq

/-- Fallback `scandir(path)`: one `DirEntry` per `os.listdir` name. -/
def scandirFallback (raw : List String) (path : String) : List FallbackDirEntry :=
  (listdirModel raw).map fun n => ⟨path, n⟩

/-! ## Windows branch -/

def INVALID_HANDLE : Nat := 0
def ERROR_FILE_NOT_FOUND : Nat := 2
def ERROR_NO_MORE_FILES : Nat := 18
def FILE_ATTRIBUTE_READONLY : Nat := 1
def FILE_ATTRIBUTE_DIRECTORY : Nat := 16
def FILE_ATTRIBUTE_REPARSE_POINT : Nat := 1024

/-- The WIN32_FIND_DATAW fields the source reads. -/
structure WinFindData where
  dwFileAttributes : Nat
  nFileSizeHigh : Nat
  nFileSizeLow : Nat
  cFileName : String
deriving DecidableEq

/-- `find_data_to_stat`, restricted to the fields no claim ignores: the
`st_mode` accumulation is the source's exactly (directory bit chooses
`S_IFDIR|0o111` versus `S_IFREG`, the readonly bit chooses `0o444` versus
`0o666`, a reparse point ORs in `S_IFLNK`); `st_size` is
`high << 32 | low`.  The timestamp fields go through floating-point division
and are omitted. -/
def find_data_to_stat (data : WinFindData) : stat_result :=
  let attributes := data.dwFileAttributes
  let m1 : Nat :=
    if attributes &&& FILE_ATTRIBUTE_DIRECTORY ≠ 0 then S_IFDIR ||| 0o111
    else S_IFREG
  let m2 : Nat :=
    if attributes &&& FILE_ATTRIBUTE_READONLY ≠ 0 then m1 ||| 0o444
    else m1 ||| 0o666
  let m3 : Nat :=
    if attributes &&& FILE_ATTRIBUTE_REPARSE_POINT ≠ 0 then m2 ||| S_IFLNK
    else m2
  ⟨m3, data.nFileSizeHigh <<< 32 ||| data.nFileSizeLow⟩

/-- Windows `DirEntry`: `name`, the memoized `_lstat`, and `_find_data`. -/
structure WinDirEntry where
  name : String
  lstatCache : Option stat_result
  find_data : WinFindData
deriving DecidableEq

/-- Windows `DirEntry.lstat`: lazily convert `_find_data` (a pure conversion,
no native call) and memoize it. -/
def WinDirEntry.lstat (e : WinDirEntry) : stat_result × WinDirEntry :=
  match e.lstatCache with
  | some st => (st, e)
  | none =>
      let st := find_data_to_stat e.find_data
      (st, ⟨e.name, some st, e.find_data⟩)

/-- Windows `DirEntry.isdir`: `dwFileAttributes & FILE_ATTRIBUTE_DIRECTORY != 0`;
reads only `_find_data`, never `_lstat`. -/
def WinDirEntry.isdir (e : WinDirEntry) : Bool :=
  decide (e.find_data.dwFileAttributes &&& FILE_ATTRIBUTE_DIRECTORY ≠ 0)

/-- Windows `DirEntry.isfile`: `dwFileAttributes & FILE_ATTRIBUTE_DIRECTORY == 0`. -/
def WinDirEntry.isfile (e : WinDirEntry) : Bool :=
  decide (e.find_data.dwFileAttributes &&& FILE_ATTRIBUTE_DIRECTORY = 0)

/-- Windows `DirEntry.islink`:
`dwFileAttributes & FILE_ATTRIBUTE_REPARSE_POINT != 0`. -/
def WinDirEntry.islink (e : WinDirEntry) : Bool :=
  decide (e.find_data.dwFileAttributes &&& FILE_ATTRIBUTE_REPARSE_POINT ≠ 0)

/-- OS behaviour of one directory for the Windows branch: the
`FindFirstFile` result (error code, or the first find-data record) and the
successive `FindNextFile` results; an exhausted list is
`ERROR_NO_MORE_FILES`. -/
structure WinOs where
  first : Except Nat WinFindData
  nexts : List (Except Nat WinFindData)

/-- The native calls the Windows branch can make. -/
inductive WinCall where
  | findFirst (ok : Bool)
  | findNext
  | findClose
deriving DecidableEq, BEq

/-- The Windows read loop: handle the current record (skip `.`/`..`,
otherwise yield, closing at once if that yield satisfies the consumer's
demand), then `FindNextFile`: an exhausted stream or `ERROR_NO_MORE_FILES`
breaks (FindClose, normal end), any other failure raises `win_error` (running
the `finally:` FindClose). -/
def winLoop (path : String) :
    Option Nat → List WinDirEntry → List WinCall → WinFindData →
    List (Except Nat WinFindData) →
    List WinCall × Except OsError (List WinDirEntry)
  | remaining, acc, tr, data, nexts =>
    let deliver : Bool := !(data.cFileName == "." || data.cFileName == "..")
    let acc' := if deliver then acc ++ [(⟨data.cFileName, none, data⟩ : WinDirEntry)] else acc
    let rem' := if deliver then decLimit remaining else remaining
    if deliver ∧ rem' = some 0 then
      (tr ++ [WinCall.findClose], Except.ok acc')
    else
      match nexts with
      | [] => (tr ++ [WinCall.findNext, WinCall.findClose], Except.ok acc')
      | Except.error c :: _ =>
          if c = ERROR_NO_MORE_FILES then
            (tr ++ [WinCall.findNext, WinCall.findClose], Except.ok acc')
          else
            (tr ++ [WinCall.findNext, WinCall.findClose], Except.error ⟨c, path⟩)
      | Except.ok d :: rest =>
          winLoop path rem' acc' (tr ++ [WinCall.findNext]) d rest

/-- Windows `scandir(path)`: `FindFirstFile`; on `INVALID_HANDLE_VALUE` with
`GetLastError() == ERROR_FILE_NOT_FOUND` the source returns without yielding
anything ("No files, don't yield anything"), on any other code it raises
`win_error(error, path)`; otherwise the read loop over the already-obtained
first record. -/
def scandirWinTrace (os : WinOs) (path : String) (limit : Option Nat) :
    List WinCall × Except OsError (List WinDirEntry) :=
  if limit = some 0 then ([], Except.ok [])
  else
    match os.first with
    | Except.error c =>
        if c = ERROR_FILE_NOT_FOUND then
          ([WinCall.findFirst false], Except.ok [])
        else
          ([WinCall.findFirst false], Except.error ⟨c, path⟩)
    | Except.ok data => winLoop path limit [] [WinCall.findFirst true] data os.nexts

/-! ## Tree walker

`walk(top, topdown, onerror, followlinks)` is platform-independent: it scans
`top`, buckets the entries with `entry.isdir()`, yields the
`(top, dir_names, file_names)` triple (before recursion when `topdown`), lets
the consumer edit `dir_names` at that yield, re-resolves the edited names
through `entries_by_name` (an added name hits the undefined `TODO_DirEntry`
and raises `NameError`), and recurses into each remaining entry unless it is a
symlink and `followlinks` is off.  A failing `scandir` of the current
directory is caught: `onerror` is invoked if configured, and that subtree
yields nothing further.

The filesystem is an inductive tree; scanning a symlink node scans its target
(opendir follows links).  A `scandir` failure of a directory is recorded on
its node.  The consumer's pre-order edit is an explicit function from the
yielded path and subdirectory-name list to the edited list.  Recursion depth
is bounded by explicit fuel (any fuel exceeding the tree height is enough; an
exhausted-fuel outcome is marked distinctly so no theorem can confuse it with
the walker's own behaviour). -/

/-- A filesystem node: a non-directory, a directory (with an optional errno
its scan fails with, and its children), or a symlink to another node. -/
inductive FNode where
  | file
  | dir (err : Option Nat) (children : List (String × FNode))
  | symlink (target : FNode)

/-- What `scandir` over a node's path produces: its children minus the
`.`/`..` pseudo-entries, the node's recorded errno for a failing scan,
`ENOTDIR` for a non-directory, and the target's scan for a symlink (opendir
follows links). -/
def scanNode : FNode → Except Nat (List (String × FNode))
  | FNode.file => Except.error ENOTDIR
  | FNode.symlink t => scanNode t
  | FNode.dir (some e) _ => Except.error e
  | FNode.dir none children =>
      Except.ok (children.filter fun p => !(p.1 == "." || p.1 == ".."))

/-- The `d_type` the POSIX enumeration reports for a child node (readdir does
not follow links, so a symlink reports `DT_LNK` whatever its target is). -/
def dtypeOfNode : FNode → Nat
  | FNode.dir _ _ => DT_DIR
  | FNode.file => DT_REG
  | FNode.symlink _ => DT_LNK

/-- The POSIX `DirEntry` (with its definite `d_type` hint) a scan step builds
for a child node, instrumented with a zero lstat-call count. -/
def nodeEntrySt (c : FNode) : EntrySt :=
  ⟨⟨"", "", ⟨"", dtypeOfNode c⟩, none⟩, 0⟩

/-- What `entry.isdir()` answers during a walk on the POSIX branch, obtained
by running the actual `DirEntry.isdir` on the entry the scan step builds (the
definite hint means the lstat oracle is never consulted). -/
def posixEntryIsDir (c : FNode) : Bool :=
  (DirEntry.isdir (fun _ => Except.error 0) (nodeEntrySt c)).1

/-- What `entry.islink()` answers during a walk on the POSIX branch. -/
def posixEntryIsLink (c : FNode) : Bool :=
  (DirEntry.islink (fun _ => Except.error 0) (nodeEntrySt c)).1

/-- One `(top, dir_names, file_names)` triple yielded by `walk`. -/
structure Triple where
  path : String
  dirNames : List String
  fileNames : List String
deriving DecidableEq

/-- How a modelled walk can terminate abnormally: the `NameError` the source
raises at the undefined `TODO_DirEntry`, or exhausted modelling fuel. -/
inductive CrashKind where
  | nameError
  | fuelOut
deriving DecidableEq

/-- The observable outcome of a walk: the triples yielded (in order), the
errors passed to `onerror` in order (discarded with identical control flow
when no handler is configured), and whether an exception escaped the walk. -/
structure WalkOut where
  triples : List Triple
  onerrorCalls : List OsError
  crash : Option CrashKind
deriving DecidableEq

/-- Sequence two walk outcomes: once crashed, nothing further is produced. -/
def WalkOut.seq (a b : WalkOut) : WalkOut :=
  if a.crash.isSome then a
  else ⟨a.triples ++ b.triples, a.onerrorCalls ++ b.onerrorCalls, b.crash⟩

/-- Concatenate the outcomes of successive sibling subtrees. -/
def combineAll (l : List WalkOut) : WalkOut :=
  l.foldl WalkOut.seq ⟨[], [], none⟩

/-- `entries_by_name.get(dir_name)`: the dict maps each scanned name to its
entry (a later duplicate overwrites an earlier one, hence the last match). -/
def dictGetPair (l : List (String × FNode)) (n : String) :
    Option (String × FNode) :=
  (l.filter fun p => p.1 == n).getLast?

/-- Resolve the consumer's edited subdirectory-name list back to entries; a
name absent from the scan result reaches the undefined `TODO_DirEntry`
(`none` = the loop raises `NameError`). -/
def resolveAll (l : List (String × FNode)) :
    List String → Option (List (String × FNode))
  | [] => some []
  | n :: rest =>
      match dictGetPair l n with
      | none => none
      | some p => (resolveAll l rest).map fun ps => p :: ps

/-- `walk(top, topdown, onerror, followlinks)` over the tree rooted at
`node`, with the platform's `entry.isdir()`/`entry.islink()` answers given by
`pd`/`pl` and the consumer's pre-order edit given by `edit`.  Mirrors the
source line by line: scan (on failure, one `onerror` call and an empty
subtree); bucket into `dirs`/`nondirs` preserving order; if top-down, yield
the triple, re-resolve the edited name list (crashing with `NameError` on an
unknown name), and recurse into the resolved entries; otherwise recurse into
the scanned `dirs` and yield the triple afterwards; symlinks are only
descended into when `followlinks` is set. -/
def walkF (pd pl : FNode → Bool) (edit : String → List String → List String)
    (td fl : Bool) : Nat → FNode → String → WalkOut
  | 0, _, _ => ⟨[], [], some CrashKind.fuelOut⟩
  | Nat.succ fuel, node, top =>
    match scanNode node with
    | Except.error e => ⟨[], [⟨e, top⟩], none⟩
    | Except.ok children =>
      let dirs0 := children.filter fun p => pd p.2
      let nondirs := children.filter fun p => !pd p.2
      if td then
        let dirNames := dirs0.map Prod.fst
        let t0 : Triple := ⟨top, dirNames, nondirs.map Prod.fst⟩
        match resolveAll dirs0 (edit top dirNames) with
        | none => ⟨[t0], [], some CrashKind.nameError⟩
        | some dirs1 =>
            let sub := combineAll ((dirs1.filter fun p => fl || !pl p.2).map
              fun p => walkF pd pl edit td fl fuel p.2 (join top p.1))
            ⟨t0 :: sub.triples, sub.onerrorCalls, sub.crash⟩
      else
        let sub := combineAll ((dirs0.filter fun p => fl || !pl p.2).map
          fun p => walkF pd pl edit td fl fuel p.2 (join top p.1))
        if sub.crash.isSome then sub
        else
          ⟨sub.triples ++ [⟨top, dirs0.map Prod.fst, nondirs.map Prod.fst⟩],
           sub.onerrorCalls, none⟩

/-- The identity pre-order edit: the consumer leaves `dir_names` untouched. -/
def idEdit : String → List String → List String := fun _ l => l

/-! ## Concrete trees used to settle the walker claims -/

/-- Tree for the pre-order editing claim: `root/{a/, b/{y}}`. -/
def c4tree : FNode :=
  FNode.dir none
    [("a", FNode.dir none []),
     ("b", FNode.dir none [("y", FNode.file)])]

/-- Tree for the symlink claim: `root/{a/{x}, link -> a}` (the link target is
the directory `a`, written out inline). -/
def c5tree : FNode :=
  FNode.dir none
    [("a", FNode.dir none [("x", FNode.file)]),
     ("link", FNode.symlink (FNode.dir none [("x", FNode.file)]))]

/-- Tree for the subtree-failure claim: `root/{a/{x}, b/ (scan fails with
errno e), c/}`. -/
def c9tree (e : Nat) : FNode :=
  FNode.dir none
    [("a", FNode.dir none [("x", FNode.file)]),
     ("b", FNode.dir (some e) []),
     ("c", FNode.dir none [])]

/-! ## File kinds for the hinted-classification claim

A POSIX enumeration step that reports a definite `d_type` reports the kind of
the child as the filesystem holds it; an unraced full `lstat` of the same
child reports the matching `S_IFMT` bits.  `FKind` enumerates the kinds,
`dtypeOfKind` the hint readdir supplies, `modeOfKind` the `st_mode` the full
status query returns for a file of that kind. -/

inductive FKind where
  | kdir
  | kreg
  | klnk
  | kfifo
deriving DecidableEq

/-- The definite `d_type` readdir reports for each kind (`DT_FIFO = 1`). -/
def dtypeOfKind : FKind → Nat
  | FKind.kdir => DT_DIR
  | FKind.kreg => DT_REG
  | FKind.klnk => DT_LNK
  | FKind.kfifo => 1

/-- The `st_mode` a full status query returns for a file of each kind
(type bits plus ordinary permission bits). -/
def modeOfKind : FKind → Nat
  | FKind.kdir => 0o040755
  | FKind.kreg => 0o100644
  | FKind.klnk => 0o120777
  | FKind.kfifo => 0o010644

/-- A fresh POSIX entry carrying a definite type hint for kind `k`. -/
def hintedEntrySt (p n : String) (k : FKind) : EntrySt :=
  ⟨⟨p, n, ⟨n, dtypeOfKind k⟩, none⟩, 0⟩

/-- Call `DirEntry.lstat` twice on a fresh entry against an OS on which the
native lstat always fails with `EACCES`, and report the number of native
queries performed. -/
def lstatTwiceFailingCalls : Nat :=
  let os : LstatOracle := fun _ => Except.error EACCES
  let s0 : EntrySt := ⟨⟨"p", "n", ⟨"n", DT_REG⟩, none⟩, 0⟩
  let r1 := DirEntry.lstat os s0
  (DirEntry.lstat os r1.2).2.calls

/-! ## Helper lemmas -/

theorem countCall_append {α : Type} [BEq α] (c : α) (a b : List α) :
    countCall c (a ++ b) = countCall c a + countCall c b := by
  simp [countCall, List.filter_append]

theorem scanLoop_entries_snd (path : String) (ds : List Dirent) :
    ∀ (acc : List DirEntry) (tr : List OsCall),
      (scanLoop path none acc tr (ds.map ReadStep.entry)).2 =
        Except.ok (acc ++
          (ds.filter fun d => !(d.d_name == "." || d.d_name == "..")).map
            fun d => (⟨path, d.d_name, d, none⟩ : DirEntry)) := by
  induction ds with
  | nil => intro acc tr; simp [scanLoop]
  | cons d ds ih =>
      intro acc tr
      simp only [List.map_cons, scanLoop]
      by_cases h : d.d_name = "." ∨ d.d_name = ".."
      · have hb : (d.d_name == "." || d.d_name == "..") = true := by
          rcases h with h | h <;> simp [h]
        rw [if_pos h, ih, List.filter_cons, hb]
        simp
      · have hb : (d.d_name == "." || d.d_name == "..") = false := by
          push_neg at h
          simp [h.1, h.2]
        rw [if_neg h]
        simp only [decLimit]
        rw [if_neg (by simp), ih, List.filter_cons, hb]
        simp [List.append_assoc]
theorem scanLoop_trace (path : String) (reads : List ReadStep) :
    ∀ (remaining : Option Nat) (acc : List DirEntry) (tr : List OsCall),
      countCall OsCall.closedirCall (scanLoop path remaining acc tr reads).1 =
        countCall OsCall.closedirCall tr + 1 ∧
      ∀ b, countCall (OsCall.opendirCall b) (scanLoop path remaining acc tr reads).1 =
        countCall (OsCall.opendirCall b) tr := by
  induction reads with
  | nil =>
      intro rem acc tr
      refine ⟨?_, fun b => ?_⟩
      · rw [scanLoop, countCall_append]; rfl
      · rw [scanLoop, countCall_append]
        have : countCall (OsCall.opendirCall b) [OsCall.readdirCall, OsCall.closedirCall] = 0 := rfl
        rw [this]; exact Nat.add_zero _
  | cons s rest ih =>
      intro rem acc tr
      cases s with
      | fail e =>
          refine ⟨?_, fun b => ?_⟩
          · rw [scanLoop, countCall_append]; rfl
          · rw [scanLoop, countCall_append]
            have : countCall (OsCall.opendirCall b) [OsCall.readdirCall, OsCall.closedirCall] = 0 := rfl
            rw [this]; exact Nat.add_zero _
      | entry d =>
          by_cases h : d.d_name = "." ∨ d.d_name = ".."
          · rw [scanLoop, if_pos h]
            refine ⟨?_, fun b => ?_⟩
            · rw [(ih _ _ _).1, countCall_append]; rfl
            · rw [(ih _ _ _).2 b, countCall_append]
              have : countCall (OsCall.opendirCall b) [OsCall.readdirCall] = 0 := rfl
              rw [this]; exact Nat.add_zero _
          · rw [scanLoop, if_neg h]
            by_cases h0 : decLimit rem = some 0
            · rw [if_pos h0]
              refine ⟨?_, fun b => ?_⟩
              · rw [countCall_append]; rfl
              · rw [countCall_append]
                have : countCall (OsCall.opendirCall b) [OsCall.readdirCall, OsCall.closedirCall] = 0 := rfl
                rw [this]; exact Nat.add_zero _
            · rw [if_neg h0]
              refine ⟨?_, fun b => ?_⟩
              · rw [(ih _ _ _).1, countCall_append]; rfl
              · rw [(ih _ _ _).2 b, countCall_append]
                have : countCall (OsCall.opendirCall b) [OsCall.readdirCall] = 0 := rfl
                rw [this]; exact Nat.add_zero _
theorem winLoop_trace (path : String) (nexts : List (Except Nat WinFindData)) :
    ∀ (remaining : Option Nat) (acc : List WinDirEntry) (tr : List WinCall)
      (data : WinFindData),
      countCall WinCall.findClose (winLoop path remaining acc tr data nexts).1 =
        countCall WinCall.findClose tr + 1 ∧
      ∀ b, countCall (WinCall.findFirst b) (winLoop path remaining acc tr data nexts).1 =
        countCall (WinCall.findFirst b) tr := by
  induction nexts with
  | nil =>
      intro rem acc tr data
      simp only [winLoop]
      refine ⟨?_, fun b => ?_⟩ <;> repeat' split
      all_goals rw [countCall_append]
      all_goals rfl
  | cons x rest ih =>
      intro rem acc tr data
      cases x with
      | error c =>
          simp only [winLoop]
          refine ⟨?_, fun b => ?_⟩ <;> repeat' split
          all_goals rw [countCall_append]
          all_goals rfl
      | ok d =>
          simp only [winLoop]
          refine ⟨?_, fun b => ?_⟩ <;> repeat' split
          all_goals
            first
              | (rw [countCall_append]; rfl)
              | (rw [(ih _ _ _ _).1, countCall_append]; rfl)
              | (rw [(ih _ _ _ _).2 b, countCall_append]; rfl)

theorem dictGetPair_isSome_of_mem {l : List (String × FNode)} {n : String}
    (h : ∃ p ∈ l, p.1 = n) : (dictGetPair l n).isSome := by
  obtain ⟨p, hp, he⟩ := h
  have hmem : p ∈ l.filter fun q => q.1 == n := by
    rw [List.mem_filter]
    exact ⟨hp, by simp [he]⟩
  rw [dictGetPair, List.getLast?_isSome]
  exact List.ne_nil_of_mem hmem

theorem resolveAll_isSome (l : List (String × FNode)) :
    ∀ names, (∀ nm ∈ names, ∃ p ∈ l, p.1 = nm) →
      ∃ l', resolveAll l names = some l' := by
  intro names
  induction names with
  | nil => intro _; exact ⟨[], rfl⟩
  | cons n rest ih =>
      intro h
      have h1 := dictGetPair_isSome_of_mem (h n (by simp))
      obtain ⟨p, hp⟩ := Option.isSome_iff_exists.mp h1
      obtain ⟨l', hl'⟩ := ih fun nm hm => h nm (by simp [hm])
      refine ⟨p :: l', ?_⟩
      rw [resolveAll, hp, hl']
      rfl

theorem combineAll_crash_aux (x : CrashKind) :
    ∀ (l : List WalkOut) (a : WalkOut), a.crash ≠ some x →
      (∀ o ∈ l, o.crash ≠ some x) →
      (l.foldl WalkOut.seq a).crash ≠ some x := by
  intro l
  induction l with
  | nil => intro a ha _; exact ha
  | cons o rest ih =>
      intro a ha h
      rw [List.foldl_cons]
      refine ih _ ?_ fun q hq => h q (by simp [hq])
      rw [WalkOut.seq]
      split
      · exact ha
      · exact h o (by simp)

theorem combineAll_crash (x : CrashKind) (l : List WalkOut)
    (h : ∀ o ∈ l, o.crash ≠ some x) : (combineAll l).crash ≠ some x := by
  refine combineAll_crash_aux x l ⟨[], [], none⟩ (by simp) h
theorem walkF_no_nameError (pd pl : FNode → Bool) (td fl : Bool) :
    ∀ (fuel : Nat) (node : FNode) (top : String),
      (walkF pd pl idEdit td fl fuel node top).crash ≠ some CrashKind.nameError := by
  intro fuel
  induction fuel with
  | zero => intro node top; simp [walkF]
  | succ fuel ih =>
      intro node top
      rw [walkF]
      cases hscan : scanNode node with
      | error e => simp
      | ok children =>
          simp only [idEdit]
          by_cases htd : td
          · rw [if_pos htd]
            have hmem : ∀ nm ∈ (children.filter fun p => pd p.2).map Prod.fst,
                ∃ p ∈ children.filter fun p => pd p.2, p.1 = nm := by
              intro nm hm
              obtain ⟨p, hp, he⟩ := List.mem_map.mp hm
              exact ⟨p, hp, he⟩
            obtain ⟨l', hres⟩ :=
              resolveAll_isSome (children.filter fun p => pd p.2) _ hmem
            rw [hres]
            refine combineAll_crash _ _ ?_
            intro o ho
            obtain ⟨p, hp, he⟩ := List.mem_map.mp ho
            rw [← he]
            exact ih _ _
          · rw [if_neg htd]
            split
            · refine combineAll_crash _ _ ?_
              intro o ho
              obtain ⟨p, hp, he⟩ := List.mem_map.mp ho
              rw [← he]
              exact ih _ _
            · simp
theorem names_filter_comm (path : String) (ds : List Dirent) :
    ((ds.filter fun d => !(d.d_name == "." || d.d_name == "..")).map
      fun d => (⟨path, d.d_name, d, none⟩ : DirEntry)).map DirEntry.name =
    (ds.map Dirent.d_name).filter fun nm => !(nm == "." || nm == "..") := by
  induction ds with
  | nil => rfl
  | cons d ds ih =>
      by_cases hp : d.d_name = "." ∨ d.d_name = ".."
      · have hb : (d.d_name == "." || d.d_name == "..") = true := by
          rcases hp with h | h <;> simp [h]
        rw [List.map_cons, List.filter_cons, List.filter_cons, hb]
        rw [if_neg (by simp), if_neg (by simp)]
        exact ih
      · have hb : (d.d_name == "." || d.d_name == "..") = false := by
          push_neg at hp
          simp [hp.1, hp.2]
        rw [List.map_cons, List.filter_cons, List.filter_cons, hb]
        rw [if_pos (by simp), if_pos (by simp)]
        rw [List.map_cons, List.map_cons, ih]

/-- C1: over a directory whose raw native listing is `ds` (no step failure, no
concurrent mutation), POSIX `scandir` yields exactly the reference listing's
names minus `.` and `..` — as lists, hence as sets (the membership form) —
and the fallback `os.listdir`-based branch does the same over a raw listing
`raw`. -/
theorem C1_scandir_names (ds : List Dirent) (raw : List String) (path : String) :
    scandirNames ⟨none, ds.map ReadStep.entry⟩ path =
      (ds.map Dirent.d_name).filter (fun nm => !(nm == "." || nm == "..")) ∧
    (∀ nm, nm ∈ scandirNames ⟨none, ds.map ReadStep.entry⟩ path ↔
      (nm ∈ ds.map Dirent.d_name ∧ nm ≠ "." ∧ nm ≠ "..")) ∧
    (scandirFallback raw path).map FallbackDirEntry.name =
      raw.filter (fun nm => !(nm == "." || nm == "..")) := by
  have h1 : scandirNames ⟨none, ds.map ReadStep.entry⟩ path =
      (ds.map Dirent.d_name).filter (fun nm => !(nm == "." || nm == "..")) := by
    rw [scandirNames, scandirPosixTrace]
    simp only [if_neg (by simp : ¬(none : Option Nat) = some 0)]
    rw [scanLoop_entries_snd]
    simp only []
    rw [List.nil_append, names_filter_comm]
  refine ⟨h1, fun nm => ?_, ?_⟩
  · rw [h1, List.mem_filter]
    simp [and_assoc]
  · rw [scandirFallback, listdirModel, List.map_map]
    have : (FallbackDirEntry.name ∘ fun n => (⟨path, n⟩ : FallbackDirEntry)) =
        fun n => n := rfl
    rw [this, List.map_id']

/-- C6: for an entry whose type hint is absent (`DT_UNKNOWN`), each
classification query performs the full status query: on failure it reports
`false` (memoizing nothing, one native call made), while `lstat()` on the
same failure propagates the `OSError` (errno plus full path); on success it
memoizes the record and classifies from its mode bits. -/
theorem C6_unknown_hint_classification (p n : String) (e : Nat) (st : stat_result) :
    (DirEntry.isdir (fun _ => Except.error e) ⟨⟨p, n, ⟨n, DT_UNKNOWN⟩, none⟩, 0⟩) =
      (false, ⟨⟨p, n, ⟨n, DT_UNKNOWN⟩, none⟩, 1⟩) ∧
    (DirEntry.isfile (fun _ => Except.error e) ⟨⟨p, n, ⟨n, DT_UNKNOWN⟩, none⟩, 0⟩) =
      (false, ⟨⟨p, n, ⟨n, DT_UNKNOWN⟩, none⟩, 1⟩) ∧
    (DirEntry.islink (fun _ => Except.error e) ⟨⟨p, n, ⟨n, DT_UNKNOWN⟩, none⟩, 0⟩) =
      (false, ⟨⟨p, n, ⟨n, DT_UNKNOWN⟩, none⟩, 1⟩) ∧
    (DirEntry.lstat (fun _ => Except.error e) ⟨⟨p, n, ⟨n, DT_UNKNOWN⟩, none⟩, 0⟩) =
      (Except.error ⟨e, join p n⟩, ⟨⟨p, n, ⟨n, DT_UNKNOWN⟩, none⟩, 1⟩) ∧
    (DirEntry.isdir (fun _ => Except.ok st) ⟨⟨p, n, ⟨n, DT_UNKNOWN⟩, none⟩, 0⟩) =
      (S_ISDIRb st.st_mode, ⟨⟨p, n, ⟨n, DT_UNKNOWN⟩, some st⟩, 1⟩) ∧
    (DirEntry.isfile (fun _ => Except.ok st) ⟨⟨p, n, ⟨n, DT_UNKNOWN⟩, none⟩, 0⟩) =
      (S_ISREGb st.st_mode, ⟨⟨p, n, ⟨n, DT_UNKNOWN⟩, some st⟩, 1⟩) ∧
    (DirEntry.islink (fun _ => Except.ok st) ⟨⟨p, n, ⟨n, DT_UNKNOWN⟩, none⟩, 0⟩) =
      (S_ISLNKb st.st_mode, ⟨⟨p, n, ⟨n, DT_UNKNOWN⟩, some st⟩, 1⟩) := by
  exact ⟨rfl, rfl, rfl, rfl, rfl, rfl, rfl⟩
/-- C7 counterexample: on an entry whose underlying lstat keeps failing (here
with `EACCES`), two `lstat()` calls perform two native queries, not one —
each call raises and nothing is memoized, so the claim's "exactly one
underlying native query for two or more calls" is false for this entry. -/
theorem C7_counterexample : lstatTwiceFailingCalls = 2 ∧ lstatTwiceFailingCalls ≠ 1 := by
  exact ⟨rfl, by decide⟩

/-- C7 (amended): `status()` is idempotent whenever its underlying query
succeeds: the first call performs the single native query and memoizes the
record, and a later call returns the memoized record with no state change at
all (hence any number of further calls still leave exactly one native
query). -/
theorem C7_status_memoized (os : LstatOracle) (p n : String) (dt : Nat)
    (st : stat_result) (h : os 0 = Except.ok st) :
    DirEntry.lstat os ⟨⟨p, n, ⟨n, dt⟩, none⟩, 0⟩ =
      (Except.ok st, ⟨⟨p, n, ⟨n, dt⟩, some st⟩, 1⟩) ∧
    DirEntry.lstat os ⟨⟨p, n, ⟨n, dt⟩, some st⟩, 1⟩ =
      (Except.ok st, ⟨⟨p, n, ⟨n, dt⟩, some st⟩, 1⟩) := by
  constructor
  · rw [DirEntry.lstat]
    simp only [h]
  · rfl

/-- C7 witness: the amended theorem applied at a concrete always-succeeding
OS. -/
theorem C7_status_memoized_witness :
    DirEntry.lstat (fun _ => Except.ok ⟨0o100644, 7⟩)
        ⟨⟨"p", "n", ⟨"n", DT_REG⟩, none⟩, 0⟩ =
      (Except.ok ⟨0o100644, 7⟩, ⟨⟨"p", "n", ⟨"n", DT_REG⟩, some ⟨0o100644, 7⟩⟩, 1⟩) ∧
    DirEntry.lstat (fun _ => Except.ok ⟨0o100644, 7⟩)
        ⟨⟨"p", "n", ⟨"n", DT_REG⟩, some ⟨0o100644, 7⟩⟩, 1⟩ =
      (Except.ok ⟨0o100644, 7⟩, ⟨⟨"p", "n", ⟨"n", DT_REG⟩, some ⟨0o100644, 7⟩⟩, 1⟩) :=
  C7_status_memoized (fun _ => Except.ok ⟨0o100644, 7⟩) "p" "n" DT_REG ⟨0o100644, 7⟩ rfl

/-- C10: a failed status query is not memoized: against an OS whose first
lstat fails with errno `e` and whose next lstat succeeds with `st`, the first
`lstat()` raises and leaves the cache unset (one native call), a second
`lstat()` performs a fresh native query and succeeds, and a classification
query made after the failure likewise re-queries and classifies from the
fresh record. -/
theorem C10_failure_not_memoized (p n : String) (e : Nat) (st : stat_result) :
    DirEntry.lstat (fun k => if k = 0 then Except.error e else Except.ok st)
        ⟨⟨p, n, ⟨n, DT_UNKNOWN⟩, none⟩, 0⟩ =
      (Except.error ⟨e, join p n⟩, ⟨⟨p, n, ⟨n, DT_UNKNOWN⟩, none⟩, 1⟩) ∧
    DirEntry.lstat (fun k => if k = 0 then Except.error e else Except.ok st)
        ⟨⟨p, n, ⟨n, DT_UNKNOWN⟩, none⟩, 1⟩ =
      (Except.ok st, ⟨⟨p, n, ⟨n, DT_UNKNOWN⟩, some st⟩, 2⟩) ∧
    DirEntry.isdir (fun k => if k = 0 then Except.error e else Except.ok st)
        ⟨⟨p, n, ⟨n, DT_UNKNOWN⟩, none⟩, 1⟩ =
      (S_ISDIRb st.st_mode, ⟨⟨p, n, ⟨n, DT_UNKNOWN⟩, some st⟩, 2⟩) := by
  exact ⟨rfl, rfl, rfl⟩

/-- C8: in every run of the POSIX `scandir` — normal completion, abandonment
after any number of entries, or a failing native step — the number of
`closedir` calls in the native trace equals the number of successful
`opendir` calls, and there is at most one of each: the handle is released
exactly once when acquired and never otherwise; likewise for the Windows
branch with FindFirstFile/FindClose. -/
theorem C8_handle_released_once (osP : PosixDirOs) (osW : WinOs) (path : String)
    (limit : Option Nat) :
    countCall OsCall.closedirCall (scandirPosixTrace osP path limit).1 =
      countCall (OsCall.opendirCall true) (scandirPosixTrace osP path limit).1 ∧
    countCall (OsCall.opendirCall true) (scandirPosixTrace osP path limit).1 ≤ 1 ∧
    countCall WinCall.findClose (scandirWinTrace osW path limit).1 =
      countCall (WinCall.findFirst true) (scandirWinTrace osW path limit).1 ∧
    countCall (WinCall.findFirst true) (scandirWinTrace osW path limit).1 ≤ 1 := by
  have hP : countCall OsCall.closedirCall (scandirPosixTrace osP path limit).1 =
      countCall (OsCall.opendirCall true) (scandirPosixTrace osP path limit).1 ∧
      countCall (OsCall.opendirCall true) (scandirPosixTrace osP path limit).1 ≤ 1 := by
    rw [scandirPosixTrace]
    by_cases h0 : limit = some 0
    · rw [if_pos h0]; exact ⟨rfl, Nat.zero_le 1⟩
    · rw [if_neg h0]
      cases hop : osP.openResult with
      | some e => exact ⟨rfl, Nat.zero_le 1⟩
      | none =>
          dsimp only
          have ht := scanLoop_trace path osP.reads limit [] [OsCall.opendirCall true]
          rw [ht.1, ht.2 true]
          exact ⟨rfl, Nat.le_refl 1⟩
  have hW : countCall WinCall.findClose (scandirWinTrace osW path limit).1 =
      countCall (WinCall.findFirst true) (scandirWinTrace osW path limit).1 ∧
      countCall (WinCall.findFirst true) (scandirWinTrace osW path limit).1 ≤ 1 := by
    rw [scandirWinTrace]
    by_cases h0 : limit = some 0
    · rw [if_pos h0]; exact ⟨rfl, Nat.zero_le 1⟩
    · rw [if_neg h0]
      cases hop : osW.first with
      | error c =>
          dsimp only
          by_cases hc : c = ERROR_FILE_NOT_FOUND
          · rw [if_pos hc]; exact ⟨rfl, Nat.zero_le 1⟩
          · rw [if_neg hc]; exact ⟨rfl, Nat.zero_le 1⟩
      | ok data =>
          dsimp only
          have ht := winLoop_trace path osW.nexts limit [] [WinCall.findFirst true] data
          rw [ht.1, ht.2 true]
          exact ⟨rfl, Nat.le_refl 1⟩
  exact ⟨hP.1, hP.2, hW.1, hW.2⟩
theorem win_nonreparse_matches (w : WinFindData) (nm : String)
    (hrep : w.dwFileAttributes &&& FILE_ATTRIBUTE_REPARSE_POINT = 0) :
    WinDirEntry.isdir ⟨nm, none, w⟩ = S_ISDIRb (find_data_to_stat w).st_mode ∧
    WinDirEntry.isfile ⟨nm, none, w⟩ = S_ISREGb (find_data_to_stat w).st_mode ∧
    WinDirEntry.islink ⟨nm, none, w⟩ = S_ISLNKb (find_data_to_stat w).st_mode := by
  simp only [WinDirEntry.isdir, WinDirEntry.isfile, WinDirEntry.islink,
    find_data_to_stat, hrep]
  by_cases h16 : w.dwFileAttributes &&& FILE_ATTRIBUTE_DIRECTORY = 0 <;>
    by_cases h1 : w.dwFileAttributes &&& FILE_ATTRIBUTE_READONLY = 0 <;>
      simp [h16, h1] <;> decide

/-- C2 counterexample: on the Windows branch, `FindFirstFile` failing with
`ERROR_FILE_NOT_FOUND` makes `scandir` silently yield an empty sequence: the
outcome is `ok []` (no error), although the open failed (the trace records
the failed FindFirstFile) — refuting "it never silently yields an empty
sequence in place of the error". -/
theorem C2_counterexample :
    (scandirWinTrace ⟨Except.error ERROR_FILE_NOT_FOUND, []⟩ "p" none).2 =
      Except.ok [] ∧
    (scandirWinTrace ⟨Except.error ERROR_FILE_NOT_FOUND, []⟩ "p" none).1 =
      [WinCall.findFirst false] := ⟨rfl, rfl⟩

/-- C2 (amended): when opening the directory fails, the POSIX `scandir`
always raises an `OSError` carrying the path and the native errno (errno 2
mapping to NotFound, 13 to PermissionDenied, anything else to a plain
OSError), and the Windows `scandir` does the same for every open-failure code
except `ERROR_FILE_NOT_FOUND`, which it deliberately treats as "no files" and
yields an empty sequence without error. -/
theorem C2_open_failure_raises (e c : Nat) (path : String) (reads : List ReadStep)
    (nexts : List (Except Nat WinFindData)) (hc : c ≠ ERROR_FILE_NOT_FOUND) :
    (scandirPosixTrace ⟨some e, reads⟩ path none).2 = Except.error ⟨e, path⟩ ∧
    errKind ENOENT = ErrKind.notFound ∧
    errKind EACCES = ErrKind.permissionDenied ∧
    (e ≠ ENOENT → e ≠ EACCES → errKind e = ErrKind.other) ∧
    (scandirWinTrace ⟨Except.error c, nexts⟩ path none).2 = Except.error ⟨c, path⟩ := by
  refine ⟨rfl, rfl, rfl, fun h1 h2 => ?_, ?_⟩
  · rw [errKind, if_neg h1, if_neg h2]
  · rw [scandirWinTrace, if_neg (by simp)]
    dsimp only
    rw [if_neg hc]

/-- C2 witness: the amended theorem applied at errno 13 (POSIX) and native
code 5 (Windows). -/
theorem C2_open_failure_raises_witness :
    (scandirPosixTrace ⟨some 13, []⟩ "p" none).2 = Except.error ⟨13, "p"⟩ ∧
    (scandirWinTrace ⟨Except.error 5, []⟩ "p" none).2 = Except.error ⟨5, "p"⟩ :=
  ⟨(C2_open_failure_raises 13 5 "p" [] [] (by decide)).1,
   (C2_open_failure_raises 13 5 "p" [] [] (by decide)).2.2.2.2⟩

/-- C3 counterexample: a Windows entry whose find-data has only the
reparse-point attribute (a symlink to a non-directory): `isfile()` answers
`true` from the attribute hint, but classifying from the mode bits the full
status conversion produces answers `false`, because `find_data_to_stat` ORs
`S_IFLNK` over `S_IFREG` — so the claimed agreement with a full status
query's mode bits fails. -/
theorem C3_counterexample :
    WinDirEntry.isfile ⟨"x", none, ⟨FILE_ATTRIBUTE_REPARSE_POINT, 0, 0, "x"⟩⟩ = true ∧
    S_ISREGb (find_data_to_stat ⟨FILE_ATTRIBUTE_REPARSE_POINT, 0, 0, "x"⟩).st_mode
      = false := by
  exact ⟨by decide, by decide⟩

/-- C3 (amended): a POSIX entry with a definite type hint answers
`isdir()`/`isfile()`/`islink()` without touching the lstat oracle or the
entry's state, and agrees with the mode-bit classification of a full status
query for the hinted kind; a Windows entry (whose hint is always present)
likewise answers from the attributes alone, and agrees with the mode bits of
its own `find_data_to_stat` conversion whenever the entry is not a reparse
point (reparse-point entries disagree, per the counterexample). -/
theorem C3_hinted_classification (k : FKind) (p n nm : String) (os : LstatOracle)
    (w : WinFindData)
    (hrep : w.dwFileAttributes &&& FILE_ATTRIBUTE_REPARSE_POINT = 0) :
    (DirEntry.isdir os (hintedEntrySt p n k)).1 = S_ISDIRb (modeOfKind k) ∧
    (DirEntry.isdir os (hintedEntrySt p n k)).2 = hintedEntrySt p n k ∧
    (DirEntry.isfile os (hintedEntrySt p n k)).1 = S_ISREGb (modeOfKind k) ∧
    (DirEntry.isfile os (hintedEntrySt p n k)).2 = hintedEntrySt p n k ∧
    (DirEntry.islink os (hintedEntrySt p n k)).1 = S_ISLNKb (modeOfKind k) ∧
    (DirEntry.islink os (hintedEntrySt p n k)).2 = hintedEntrySt p n k ∧
    WinDirEntry.isdir ⟨nm, none, w⟩ = S_ISDIRb (find_data_to_stat w).st_mode ∧
    WinDirEntry.isfile ⟨nm, none, w⟩ = S_ISREGb (find_data_to_stat w).st_mode ∧
    WinDirEntry.islink ⟨nm, none, w⟩ = S_ISLNKb (find_data_to_stat w).st_mode := by
  have hw := win_nonreparse_matches w nm hrep
  cases k <;> exact ⟨rfl, rfl, rfl, rfl, rfl, rfl, hw.1, hw.2.1, hw.2.2⟩

/-- C3 witness: the amended theorem applied to a directory-kind POSIX entry
and a plain-directory Windows entry. -/
theorem C3_hinted_classification_witness :
    (DirEntry.isdir (fun _ => Except.error 0) (hintedEntrySt "p" "n" FKind.kdir)).1 =
      S_ISDIRb (modeOfKind FKind.kdir) ∧
    WinDirEntry.isdir ⟨"n", none, ⟨FILE_ATTRIBUTE_DIRECTORY, 0, 0, "n"⟩⟩ =
      S_ISDIRb (find_data_to_stat ⟨FILE_ATTRIBUTE_DIRECTORY, 0, 0, "n"⟩).st_mode := by
  have h := C3_hinted_classification FKind.kdir "p" "n" "n" (fun _ => Except.error 0)
    ⟨FILE_ATTRIBUTE_DIRECTORY, 0, 0, "n"⟩ (by decide)
  exact ⟨h.1, h.2.2.2.2.2.2.1⟩
/-- C4: in pre-order mode over `root/{a/, b/{y}}` the walker honors the
consumer's edited subdirectory list — removing `b` suppresses every triple
for that subtree, and reordering to `[b, a]` re-resolves the remaining names
and recurses in the edited order — but a name added by the consumer that was
not in the original scan does not get a synthesized fresh lookup: the code
reaches the undefined name `TODO_DirEntry` and the walk dies with a
`NameError` right after the already-yielded triple (the `TODO ben: fix`
comment marks the slip). -/
theorem C4_edited_dir_list :
    walkF posixEntryIsDir posixEntryIsLink (fun _ l => l.filter fun nm => nm != "b")
        true false 3 c4tree "root" =
      ⟨[⟨"root", ["a", "b"], []⟩, ⟨join "root" "a", [], []⟩], [], none⟩ ∧
    walkF posixEntryIsDir posixEntryIsLink (fun _ l => l.reverse)
        true false 3 c4tree "root" =
      ⟨[⟨"root", ["a", "b"], []⟩, ⟨join "root" "b", [], ["y"]⟩,
        ⟨join "root" "a", [], []⟩], [], none⟩ ∧
    walkF posixEntryIsDir posixEntryIsLink (fun _ l => l ++ ["zz"])
        true false 3 c4tree "root" =
      ⟨[⟨"root", ["a", "b"], []⟩], [], some CrashKind.nameError⟩ := by
  exact ⟨by decide, by decide, by decide⟩

/-- C5: walking `root/{a/{x}, link -> a}` on the POSIX branch, the symlinked
directory `link` is listed among the FILE names (readdir reports `DT_LNK`,
so `entry.isdir()` is false), not among the subdirectory names, and no triple
is ever produced for `root/link` — even with follow-links ON — contradicting
the claimed os.walk-like behaviour, which only the Windows branch (where a
directory reparse point keeps `FILE_ATTRIBUTE_DIRECTORY`) exhibits. -/
theorem C5_symlink_not_descended :
    walkF posixEntryIsDir posixEntryIsLink idEdit true true 3 c5tree "root" =
      ⟨[⟨"root", ["a"], ["link"]⟩, ⟨join "root" "a", [], ["x"]⟩], [], none⟩ ∧
    walkF posixEntryIsDir posixEntryIsLink idEdit true false 3 c5tree "root" =
      ⟨[⟨"root", ["a"], ["link"]⟩, ⟨join "root" "a", [], ["x"]⟩], [], none⟩ := by
  exact ⟨by decide, by decide⟩

/-- C9: a walk whose consumer leaves the subdirectory list untouched never
raises out of the overall traversal (no `NameError` can escape, and a failing
scan is converted into one `onerror` invocation, never an exception); over
`root/{a/{x}, b/ (scan fails with errno e), c/}` the walker yields the
triples of the root and of both sibling subtrees, yields nothing for `b`,
and records exactly one handler invocation carrying errno `e` and the failing
subtree's path (with no handler configured the same walk just drops that
error, yielding the identical triples). -/
theorem C9_subtree_failure_contained (e : Nat) (pd pl : FNode → Bool)
    (td fl : Bool) (fuel : Nat) (node : FNode) (top : String) :
    (walkF pd pl idEdit td fl fuel node top).crash ≠ some CrashKind.nameError ∧
    walkF posixEntryIsDir posixEntryIsLink idEdit true false 3 (c9tree e) "root" =
      ⟨[⟨"root", ["a", "b", "c"], []⟩, ⟨join "root" "a", [], ["x"]⟩,
        ⟨join "root" "c", [], []⟩], [⟨e, join "root" "b"⟩], none⟩ := by
  exact ⟨walkF_no_nameError pd pl td fl fuel node top, rfl⟩
end Scandir
